import Mathlib

/-!
Verification of the sourcegraph xlang stress benchmark and the campaigns
code-host connection resolver, as a shallow embedding in Lean 4.
-/

namespace Spec2Proof

/-! ## Character-position enumeration (BenchmarkStress, part_000 lines 113-131)

The benchmark walks the decoded runes of each file (`for i, r := range
string(contentsBytes)`), where `i` is the byte offset of the rune and `r`
the decoded rune, recording a `(line, character)` pair for each rune until
the byte offset reaches `maxPos`. -/

/-- The loop body of the position enumeration in `BenchmarkStress`:
`i` is the byte offset of the current rune (Go's `range` over a string
yields byte offsets), `line`/`character` the running coordinates. -/
def enumCharPositionsAux (maxPos : Nat) : List Char → Nat → Nat → Nat → List (Nat × Nat)
  | [], _, _, _ => []
  | r :: rest, i, line, character =>
    if maxPos ≤ i then []
    else
      (line, character) ::
        (if r = '\n' then
          enumCharPositionsAux maxPos rest (i + r.utf8Size) (line + 1) 0
        else
          enumCharPositionsAux maxPos rest (i + r.utf8Size) line (character + 1))

/-- The position-enumeration algorithm of `BenchmarkStress` for one file,
starting at byte offset 0, line 0, character 0. -/
def enumCharPositions (maxPos : Nat) (contents : List Char) : List (Nat × Nat) :=
  enumCharPositionsAux maxPos contents 0 0 0

/-- One decoded rune's effect on a `(line, character)` coordinate:
a newline starts the next line at character 0, any other rune advances
the character count by exactly one unit. -/
def runePosStep (p : Nat × Nat) (r : Char) : Nat × Nat :=
  if r = '\n' then (p.1 + 1, 0) else (p.1, p.2 + 1)

/-! ## Error logging in the benchmark (part_000 lines 158-166)

`doStressTestOpForPosition` errors are logged with `b.Logf` unless the
message contains the substring `"invalid location:"` (Go's
`strings.Contains`). -/

/-- Whether the character list `s` begins with the character list `p`
(the inner matching step of Go's `strings.Contains`). -/
def startsWithChars : List Char → List Char → Bool
  | _, [] => true
  | [], _ :: _ => false
  | c :: cs, d :: ds => c == d && startsWithChars cs ds

/-- Whether `sub` occurs contiguously inside `s`. -/
def containsChars : List Char → List Char → Bool
  | [], sub => sub.isEmpty
  | c :: cs, sub => startsWithChars (c :: cs) sub || containsChars cs sub

/-- Go's `strings.Contains s sub`: `sub` is a substring of `s`. -/
def goContains (s sub : String) : Bool :=
  containsChars s.toList sub.toList

/-- One `b.Logf` record emitted by the benchmark's error handler. -/
structure StressLogEntry where
  path : String
  line : Int
  character : Int
  message : String
deriving DecidableEq

/-- The error handler wrapped around `doStressTestOpForPosition` in
`BenchmarkStress`: on an error whose message contains
`"invalid location:"` nothing is logged (harmless error); any other
error is logged with its file, line and character. Returns the list of
log records emitted. -/
def handleStressOpError (path : String) (line character : Int) (err : Option String) :
    List StressLogEntry :=
  match err with
  | none => []
  | some e =>
    if goContains e "invalid location:" then []
    else [⟨path, line, character, e⟩]

/-! ## doStressTestOpForPosition (part_000 lines 182-199)

The function builds one `TextDocumentPositionParams` value, issues the
three position methods with it through `parallel.Run`, tags each failure
with its method name, and `par.Wait()` returns nil iff no error was
collected. The protocol connection is modelled by the oracle `call`
mapping a method name and its params to `none` (success) or
`some errorMessage`. -/

/-- Parameters of one position query: document URI plus 0-based line and
character. Go's `int` fields are modelled as `Int`. -/
structure TextDocumentPositionParams where
  uri : String
  line : Int
  character : Int
deriving DecidableEq

/-- A workspace root: host, path and revision of a remote source tree
(the benchmark's `uri.Parse` of keys like `git://host/path?rev`). -/
structure WorkspaceURI where
  host : String
  path : String
  rev : String
deriving DecidableEq

/-- Modelled from the spec: the string form of a workspace root URI — "a
URI encoding host, path, and revision" (§6); the `xlang/uri` package is
not among the sources. Follows the benchmark's root-path format
`git://host/path?rev`. -/
def WorkspaceURI.toString (u : WorkspaceURI) : String :=
  "git://" ++ u.host ++ u.path ++ "?" ++ u.rev

/-- Modelled from the spec: `uri.URI.WithFilePath(path).String()` — a
document URI addressing file `p` under workspace root `u` (the
`xlang/uri` package is not among the sources). -/
def WorkspaceURI.withFilePath (u : WorkspaceURI) (p : String) : String :=
  WorkspaceURI.toString u ++ "#" ++ p

/-- The closed set of methods issued by `doStressTestOpForPosition`. -/
def stressMethods : List String :=
  ["textDocument/definition", "textDocument/hover", "textDocument/references"]

/-- The `params` value built once by `doStressTestOpForPosition` and
shared by all three method calls. -/
def stressParams (root : WorkspaceURI) (path : String) (line character : Int) :
    TextDocumentPositionParams :=
  ⟨root.withFilePath path, line, character⟩

/-- The `(method, params)` pairs `doStressTestOpForPosition` sends over
the connection: one per method in `stressMethods`, all with the same
params. Independent of any call's outcome. -/
def stressCallsIssued (root : WorkspaceURI) (path : String) (line character : Int) :
    List (String × TextDocumentPositionParams) :=
  stressMethods.map (fun method => (method, stressParams root path line character))

/-- The errors collected by `parallel.Run`: for each failing method,
`fmt.Errorf("%s: %s", method, err)`. -/
def stressErrs (call : String → TextDocumentPositionParams → Option String)
    (root : WorkspaceURI) (path : String) (line character : Int) : List String :=
  stressMethods.filterMap (fun method =>
    (call method (stressParams root path line character)).map
      (fun e => method ++ ": " ++ e))

/-- `doStressTestOpForPosition`: `par.Wait()` returns nil iff no method
call returned an error, otherwise the collected tagged errors. -/
def doStressTestOpForPosition (call : String → TextDocumentPositionParams → Option String)
    (root : WorkspaceURI) (path : String) (line character : Int) : Option (List String) :=
  if (stressErrs call root path line character).isEmpty then none
  else some (stressErrs call root path line character)

/-! ## Session registry and idle reaper

The proxy (`xlang.Proxy`, `ShutDownIdleServers`) is not among the
sources — the benchmark only calls it — so the registry and reaper are
modelled from the spec (§3, §4.2, §4.4). -/

/-- Modelled from the spec: a Session (§3) — bookkeeping for
last-activity time and in-flight request count, plus the lazily
populated filesystem cache owned by the session. -/
structure Session where
  lastActivityAt : Nat
  inFlightCount : Nat
  fsCache : List (String × String)
deriving DecidableEq

/-- Modelled from the spec: a SessionKey (§3) — the (mode, workspace
root) pair; the registry holds at most one live Session per key. -/
structure SessionKey where
  mode : String
  root : WorkspaceURI
deriving DecidableEq

/-- The session registry: an association of keys to live Sessions. -/
abbrev SessionRegistry := List (SessionKey × Session)

/-- Registry lookup: the first live Session bound to `k`, if any. -/
def lookupSession (reg : SessionRegistry) (k : SessionKey) : Option Session :=
  match reg with
  | [] => none
  | (k', s) :: rest => if k' = k then some s else lookupSession rest k

/-- Modelled from the spec: the `listIdleOlderThan` criterion (§4.2) — a
Session is reapable iff its in-flight count is zero and its idle
duration `now - lastActivityAt` has reached the threshold, so that a
threshold of 0 means "reap everything idle right now" (§4.4). -/
def sessionIdleAtLeast (now threshold : Nat) (s : Session) : Bool :=
  s.inFlightCount == 0 && decide (threshold ≤ now - s.lastActivityAt)

/-- Modelled from the spec: `ShutDownIdleServers` / `reap` (§4.4) —
remove every reapable Session from the registry; the removed sessions'
backend channels are terminated and their filesystem caches discarded. -/
def ShutDownIdleServers (now threshold : Nat) (reg : SessionRegistry) : SessionRegistry :=
  reg.filter (fun e => !(sessionIdleAtLeast now threshold e.2))

/-- Modelled from the spec: the handshake's `getOrCreate` (§4.2, §4.3) —
return the Session already bound to the key if one is live, otherwise
construct a fresh Session (empty filesystem cache, no in-flight
requests) and publish it. The Bool records whether a fresh Session was
spawned. -/
def handshakeSession (now : Nat) (k : SessionKey) (reg : SessionRegistry) :
    Session × Bool × SessionRegistry :=
  match lookupSession reg k with
  | some s => (s, false, reg)
  | none =>
    (⟨now, 0, []⟩, true, (k, (⟨now, 0, []⟩ : Session)) :: reg)

/-! ## xlang package globals (part_000 lines 36-57)

`BenchmarkStress` saves `xlang.LogTrackedErrors`, sets it to `false`,
and restores it with `defer`; it likewise swaps and restores
`xlang.NewRemoteRepoVFS`. These are the only xlang package globals the
benchmark touches. -/

/-- A sample registry key, as bound by the benchmark's gorilla/mux run. -/
def sampleKey : SessionKey :=
  ⟨"go", ⟨"github.com", "/gorilla/mux", "0a192a19"⟩⟩

/-- A sample drained Session with a warm filesystem cache. -/
def sampleSession : Session :=
  ⟨5, 0, [("/mux.go", "package mux")]⟩

/-- The mutable package-level state of xlang touched by the benchmark:
the error-logging toggle and the remote-repo VFS factory (the factory
value is opaque, of type `V`). -/
structure XlangGlobals (V : Type) where
  logTrackedErrors : Bool
  newRemoteRepoVFS : V
deriving DecidableEq

/-- Modelled from the spec: the default of the observability toggle
`xlang.LogTrackedErrors` — "default behavior logs them" (§6); the xlang
package that declares the variable is not among the sources. -/
def logTrackedErrorsDefault : Bool := true

/-- The exit paths of `BenchmarkStress`: the short-mode `b.Skip` fires
before any global is touched; every other exit (a `b.Fatal` or normal
completion) occurs after both `defer`red restores are registered, and
Go runs registered defers on every such exit. -/
inductive BenchExitPath where
  | skipShort
  | fatalInBody
  | completed
deriving DecidableEq

/-- The xlang globals as seen by the benchmark body between the two
swaps and their deferred restores: logging disabled and the VFS factory
replaced by the codeload-backed one. -/
def benchmarkStressBodyGlobals {V : Type} (benchVFS : V) : XlangGlobals V :=
  ⟨false, benchVFS⟩

/-- The net effect of `BenchmarkStress` on the xlang globals along exit
path `p`: on `skipShort` nothing was touched; on every other path the
toggle is saved and set to `false`, the VFS factory is saved and
swapped, and the two deferred restores write the saved values back. -/
def benchmarkStressGlobals {V : Type} (g : XlangGlobals V) (benchVFS : V)
    (p : BenchExitPath) : XlangGlobals V :=
  match p with
  | .skipShort => g
  | _ =>
    let orig := g.logTrackedErrors
    let g1 : XlangGlobals V := { g with logTrackedErrors := false }
    let origVFS := g1.newRemoteRepoVFS
    let g2 : XlangGlobals V := { g1 with newRemoteRepoVFS := benchVFS }
    let g3 : XlangGlobals V := { g2 with newRemoteRepoVFS := origVFS }
    { g3 with logTrackedErrors := orig }

/-! ## Per-iteration request sequence (part_000 lines 145-168) -/

/-- A request sent by the benchmark over one client connection. -/
inductive ClientRequest where
  | initRequest (rootPath : String) (mode : String)
  | positionQuery (method : String) (params : TextDocumentPositionParams)
deriving DecidableEq

/-- The sequence of requests one benchmark iteration sends on a freshly
dialed connection: first the `initialize` handshake carrying the root
URI string and the mode; if the handshake errors, `b.Fatal` aborts the
iteration and nothing further is sent; otherwise the three position
methods are issued for every recorded (path, line, character). -/
def benchIterationRequests (root : WorkspaceURI) (mode : String) (initErr : Option String)
    (positions : List (String × Nat × Nat)) : List ClientRequest :=
  ClientRequest.initRequest (WorkspaceURI.toString root) mode ::
    (match initErr with
     | some _ => []
     | none =>
       positions.flatMap (fun q =>
         (stressCallsIssued root q.1 (Int.ofNat q.2.1) (Int.ofNat q.2.2)).map
           (fun c => ClientRequest.positionQuery c.1 c.2)))

/-! ## campaignsCodeHostConnectionResolver (code_host_connection.go)

The resolver lists code hosts and user credentials through its store
(modelled as predetermined call results), optionally filters out code
hosts that already have a usable credential, slices a page, and caches
everything behind a `sync.Once`. Go nil `*types.Repo` pointers are
modelled as `none`; a Go runtime panic is modelled as a distinguished
outcome separate from the stored `chsErr`. -/

/-- `campaigns.CodeHost`: external service type and ID. -/
structure CodeHost where
  externalServiceType : String
  externalServiceID : String
deriving DecidableEq

/-- `database.UserCredential`, reduced to the fields the resolver reads:
its service coordinates and whether its `Credential` implements
`auth.AuthenticatorWithSSH`. -/
structure UserCredential where
  externalServiceID : String
  externalServiceType : String
  isSSHAuthenticator : Bool
deriving DecidableEq

/-- The `idType` key: (externalServiceID, externalServiceType). -/
structure idType where
  externalServiceID : String
  externalServiceType : String
deriving DecidableEq

/-- `types.Repo`, reduced to the fields the resolver reads:
`ExternalRepo.ServiceID` and the `CloneURLs()` list. -/
structure Repo where
  serviceID : String
  cloneURLs : List String
deriving DecidableEq

/-- Go map assignment `m[t] = c`: replace an existing binding, else add. -/
def credsMapInsert : List (idType × UserCredential) → idType → UserCredential →
    List (idType × UserCredential)
  | [], t, c => [(t, c)]
  | (t', c') :: rest, t, c =>
    if t' = t then (t, c) :: rest else (t', c') :: credsMapInsert rest t c

/-- Go map read `m[t]` on the credentials map (`nil` for a missing key). -/
def credsLookup : List (idType × UserCredential) → idType → Option UserCredential
  | [], _ => none
  | (t', c') :: rest, t => if t' = t then some c' else credsLookup rest t

/-- The loop populating `c.credsByIDType` from the listed credentials. -/
def buildCredsByIDType (creds : List UserCredential) : List (idType × UserCredential) :=
  creds.foldl
    (fun m cred => credsMapInsert m ⟨cred.externalServiceID, cred.externalServiceType⟩ cred) []

/-- Go map read on `reposByServiceIDs` (with its presence bit). -/
def reposMapLookup : List (String × List (Option Repo)) → String → Option (List (Option Repo))
  | [], _ => none
  | (k', v) :: rest, k => if k' = k then some v else reposMapLookup rest k

/-- Go map assignment on `reposByServiceIDs`. -/
def reposMapSet : List (String × List (Option Repo)) → String → List (Option Repo) →
    List (String × List (Option Repo))
  | [], k, v => [(k, v)]
  | (k', v') :: rest, k, v =>
    if k' = k then (k, v) :: rest else (k', v') :: reposMapSet rest k v

/-- The loop building `reposByServiceIDs` (lines 117-123): when a
service ID is unseen the slice is seeded with `make([]*types.Repo, 1)`
— a slice holding one nil pointer — and the repo is then appended. -/
def buildReposByServiceIDs (repos : List Repo) : List (String × List (Option Repo)) :=
  repos.foldl
    (fun m repo =>
      let existing :=
        match reposMapLookup m repo.serviceID with
        | none => [(none : Option Repo)]
        | some l => l
      reposMapSet m repo.serviceID (existing ++ [some repo]))
    []

/-- The panic message of a Go nil-pointer dereference. -/
def nilPanicMsg : String :=
  "runtime error: invalid memory address or nil pointer dereference"

/-- Outcome of scanning clone URLs for an SSH scheme: a Go panic, an
error stored into `chsErr`, or the computed `isSSH` flag. -/
inductive ScanOutcome where
  | panicked (msg : String)
  | err (msg : String)
  | ok (isSSH : Bool)
deriving DecidableEq

/-- Modelled from the spec: the scheme component extracted by
`net/url.Parse` (the Go standard library is not among the sources): the
leading run of scheme characters before a `:`; a URL starting with `:`
is a parse error, and a URL without a valid scheme prefix has an empty
scheme. Go lowercases the scheme. -/
def urlSchemeAux : List Char → List Char → Except String String
  | [], _ => .ok ""
  | c :: cs, acc =>
    if c.isAlpha then urlSchemeAux cs (acc ++ [c.toLower])
    else if c.isDigit || c = '+' || c = '-' || c = '.' then
      if acc.isEmpty then .ok "" else urlSchemeAux cs (acc ++ [c.toLower])
    else if c = ':' then
      if acc.isEmpty then .error "missing protocol scheme" else .ok (String.mk acc)
    else .ok ""

/-- The scheme of a clone URL as `url.Parse` reports it. -/
def urlScheme (u : String) : Except String String :=
  urlSchemeAux u.toList []

/-- The inner loop over one repo's `CloneURLs()` (lines 138-148): a URL
parse error aborts `compute` with that error stored; the first `ssh`
scheme sets `isSSH` and breaks the inner loop. -/
def scanCloneURLs : List String → ScanOutcome
  | [] => .ok false
  | u :: rest =>
    match urlScheme u with
    | .error e => .err e
    | .ok scheme => if scheme = "ssh" then .ok true else scanCloneURLs rest

/-- The outer loop over a `reposByServiceIDs` slice (lines 137-149):
`repo.CloneURLs()` dereferences the repo pointer, so a nil element
panics; otherwise the repo's URLs are scanned and the loop continues
with the accumulated `isSSH` flag. -/
def scanRepos : List (Option Repo) → Bool → ScanOutcome
  | [], acc => .ok acc
  | r :: rest, acc =>
    match r with
    | none => .panicked nilPanicMsg
    | some repo =>
      match scanCloneURLs repo.cloneURLs with
      | .err e => .err e
      | .panicked m => .panicked m
      | .ok found => scanRepos rest (acc || found)

/-- Outcome of the `onlyWithoutCredential` filtering loop
(lines 125-157). -/
inductive FilterOutcome where
  | panicked (msg : String)
  | err (msg : String)
  | ok (chs : List CodeHost)
deriving DecidableEq

/-- The filtering loop (lines 125-157): a code host with no entry in
`reposByServiceIDs` aborts with "no repos found"; otherwise the host is
kept when it has no credential, or when its clone URLs use SSH and its
credential is not an SSH authenticator. -/
def filterWithoutCredential (credsMap : List (idType × UserCredential))
    (reposMap : List (String × List (Option Repo))) :
    List CodeHost → FilterOutcome
  | [] => .ok []
  | ch :: rest =>
    match reposMapLookup reposMap ch.externalServiceID with
    | none => .err "no repos found"
    | some repos =>
      match scanRepos repos false with
      | .panicked m => .panicked m
      | .err e => .err e
      | .ok isSSH =>
        let keep : Bool :=
          match credsLookup credsMap ⟨ch.externalServiceID, ch.externalServiceType⟩ with
          | none => true
          | some cred => isSSH && !cred.isSSHAuthenticator
        match filterWithoutCredential credsMap reposMap rest with
        | .panicked m => .panicked m
        | .err e => .err e
        | .ok tail => .ok (if keep then ch :: tail else tail)

/-- The page-slicing tail of `compute` (lines 161-179): an offset at or
past the end leaves the page empty; a non-positive limit takes
everything from the offset on; otherwise the limit is capped at the
slice end. A negative offset would make the Go slice expression panic. -/
def computePage (limit offset : Int) (chs : List CodeHost) : Except String (List CodeHost) :=
  if (chs.length : Int) ≤ offset then .ok []
  else if limit ≤ 0 then
    if offset < 0 then .error "slice bounds out of range"
    else .ok (chs.drop offset.toNat)
  else
    let lim := if (chs.length : Int) ≤ limit + offset then (chs.length : Int) - offset else limit
    if offset < 0 then .error "slice bounds out of range"
    else .ok ((chs.drop offset.toNat).take lim.toNat)

/-- Decidable equality of `Except`, for deciding concrete instances. -/
instance {ε α : Type} [DecidableEq ε] [DecidableEq α] : DecidableEq (Except ε α) := fun x y =>
  match x, y with
  | .ok a, .ok b =>
    if h : a = b then .isTrue (by rw [h])
    else .isFalse (fun hc => h (Except.ok.inj hc))
  | .error a, .error b =>
    if h : a = b then .isTrue (by rw [h])
    else .isFalse (fun hc => h (Except.error.inj hc))
  | .ok _, .error _ => .isFalse (fun hc => Except.noConfusion hc)
  | .error _, .ok _ => .isFalse (fun hc => Except.noConfusion hc)

/-- The fields the `sync.Once` body stores: `c.chs`, `c.chsPage`,
`c.credsByIDType` and `c.chsErr`. -/
structure ComputeResult where
  chs : List CodeHost
  chsPage : List CodeHost
  credsByIDType : List (idType × UserCredential)
  chsErr : Option String
deriving DecidableEq

/-- `campaignsCodeHostConnectionResolver`, with its store calls
(`ListCodeHosts`, `UserCredentialsWith(...).List`, `ReposWith(...).List`)
modelled as predetermined results — the `userID`, `opts` and `repos`
fields only parameterize those calls. -/
structure campaignsCodeHostConnectionResolver where
  onlyWithoutCredential : Bool
  limit : Int
  offset : Int
  storeCodeHosts : Except String (List CodeHost)
  storeCreds : Except String (List UserCredential)
  storeRepos : Except String (List Repo)
deriving DecidableEq

/-- The body of `c.once.Do` (lines 82-180), as a pure function of the
resolver: `.error` is a Go panic escaping `compute`; `.ok` carries the
stored fields. -/
def computeCore (r : campaignsCodeHostConnectionResolver) :
    Except String ComputeResult :=
  match r.storeCodeHosts with
  | .error e => .ok ⟨[], [], [], some e⟩
  | .ok chs0 =>
    match r.storeCreds with
    | .error e => .ok ⟨chs0, [], [], some e⟩
    | .ok creds =>
      let credsMap := buildCredsByIDType creds
      match
        (if r.onlyWithoutCredential then
          match r.storeRepos with
          | .error e => FilterOutcome.err e
          | .ok repos =>
            filterWithoutCredential credsMap (buildReposByServiceIDs repos) chs0
        else FilterOutcome.ok chs0) with
      | .panicked m => .error m
      | .err e => .ok ⟨chs0, [], credsMap, some e⟩
      | .ok chs =>
        match computePage r.limit r.offset chs with
        | .error m => .error m
        | .ok page => .ok ⟨chs, page, credsMap, none⟩

/-- The resolver together with its `sync.Once` memoization state and a
count of how many times the once-body has run. -/
structure ResolverState where
  resolver : campaignsCodeHostConnectionResolver
  cached : Option (Except String ComputeResult)
  runCount : Nat
deriving DecidableEq

/-- `c.compute(ctx)`: run the body under `c.once.Do` on first use and
cache its outcome; later calls return the cached fields unchanged. -/
def compute (st : ResolverState) : Except String ComputeResult × ResolverState :=
  match st.cached with
  | some res => (res, st)
  | none =>
    (computeCore st.resolver,
      { st with cached := some (computeCore st.resolver), runCount := st.runCount + 1 })

/-- The three public methods of the connection resolver. -/
inductive ResolverMethod where
  | totalCount
  | pageInfo
  | nodes
deriving DecidableEq

/-- The sequence of compute outcomes observed by a sequence of method
calls: each of `TotalCount`, `PageInfo` and `Nodes` begins with
`c.compute(ctx)` and derives its reply purely from that quadruple. -/
def methodsTrace : List ResolverMethod → ResolverState →
    List (Except String ComputeResult) × ResolverState
  | [], st => ([], st)
  | _ :: ms, st =>
    let p := compute st
    let q := methodsTrace ms p.2
    (p.1 :: q.1, q.2)

/-- `int32(n)`: Go's wraparound conversion of a length to int32. -/
def int32ofNat (n : Nat) : Int :=
  if n % 2 ^ 32 < 2 ^ 31 then (n % 2 ^ 32 : Int) else (n % 2 ^ 32 : Int) - 2 ^ 32

/-- The reply of `graphqlutil.PageInfo`: has-next flag and cursor. -/
structure PageInfoReply where
  hasNextPage : Bool
  endCursor : Option String
deriving DecidableEq

/-- `PageInfo` (lines 48-60) as a function of the computed quadruple:
with `idx := limit + offset`, report a next page with cursor
`strconv.Itoa(idx)` iff `idx < len(chs)`. -/
def pageInfoOf (limit offset : Int) (chs : List CodeHost) : PageInfoReply :=
  if limit + offset < (chs.length : Int) then ⟨true, some (toString (limit + offset))⟩
  else ⟨false, none⟩

/-- Modelled from the spec: `extsvc.TypeToKind` (package not among the
sources) — the uppercase kind of an external service type. -/
def extsvcTypeToKind (t : String) : String :=
  t.toUpper

/-- One element of the `Nodes` reply. -/
structure campaignsCodeHostResolver where
  externalServiceKind : String
  externalServiceURL : String
  credential : Option UserCredential
deriving DecidableEq

/-- The node-building loop of `Nodes` (lines 68-76). -/
def nodesOf (page : List CodeHost) (credsMap : List (idType × UserCredential)) :
    List campaignsCodeHostResolver :=
  page.map (fun ch =>
    ⟨extsvcTypeToKind ch.externalServiceType, ch.externalServiceID,
      credsLookup credsMap ⟨ch.externalServiceID, ch.externalServiceType⟩⟩)

/-- `TotalCount` as a function of the computed quadruple. -/
def TotalCount (res : ComputeResult) : Except String Int :=
  match res.chsErr with
  | some e => .error e
  | none => .ok (int32ofNat res.chs.length)

/-- `PageInfo` as a function of the computed quadruple. -/
def PageInfo (limit offset : Int) (res : ComputeResult) : Except String PageInfoReply :=
  match res.chsErr with
  | some e => .error e
  | none => .ok (pageInfoOf limit offset res.chs)

/-- `Nodes` as a function of the computed quadruple. -/
def Nodes (res : ComputeResult) : Except String (List campaignsCodeHostResolver) :=
  match res.chsErr with
  | some e => .error e
  | none => .ok (nodesOf res.chsPage res.credsByIDType)

/-- A sample GitHub code host. -/
def sampleCodeHost : CodeHost :=
  ⟨"github", "https://github.com/"⟩

/-- A sample repo on that code host. -/
def sampleRepo : Repo :=
  ⟨"https://github.com/", ["https://github.com/foo/bar"]⟩

/-- A sample resolver that lists one code host, no credentials, and
does not filter, with limit 1 and offset 0. -/
def sampleResolver : campaignsCodeHostConnectionResolver :=
  ⟨false, 1, 0, .ok [sampleCodeHost], .ok [], .ok []⟩

end Spec2Proof

namespace Spec2Proof

lemma enumCharPositionsAux_getElem (maxPos : Nat) :
    ∀ (contents : List Char) (i line character j : Nat),
      j < (enumCharPositionsAux maxPos contents i line character).length →
      (enumCharPositionsAux maxPos contents i line character)[j]? =
        some ((contents.take j).foldl runePosStep (line, character)) := by
  intro contents
  induction contents with
  | nil =>
    intro i line character j h
    simp [enumCharPositionsAux] at h
  | cons r rest ih =>
    intro i line character j h
    by_cases hcap : maxPos ≤ i
    · simp [enumCharPositionsAux, hcap] at h
    · match j with
      | 0 =>
        simp [enumCharPositionsAux, hcap]
      | j + 1 =>
        by_cases hr : r = '\n'
        · subst hr
          have h' : j < (enumCharPositionsAux maxPos rest (i + Char.utf8Size '\n') (line + 1) 0).length := by
            simp [enumCharPositionsAux, hcap] at h
            omega
          have := ih (i + Char.utf8Size '\n') (line + 1) 0 j h'
          simp [enumCharPositionsAux, hcap, this, runePosStep]
        · have h' : j < (enumCharPositionsAux maxPos rest (i + r.utf8Size) line (character + 1)).length := by
            simp [enumCharPositionsAux, hcap, hr] at h
            omega
          have := ih (i + r.utf8Size) line (character + 1) j h'
          simp [enumCharPositionsAux, hcap, hr, this, runePosStep]

/-- C1: the benchmark's position-enumeration algorithm computes
`(line, character)` coordinates over decoded text rather than raw bytes:
the `j`-th recorded position is obtained by starting at line 0,
character 0 and folding `runePosStep` over the first `j` decoded runes,
so every non-newline rune (multi-byte or not) advances `character` by
exactly one and every newline advances `line` by one and resets
`character` to 0. -/
theorem benchmark_positions_over_decoded_text (maxPos : Nat) (contents : List Char) (j : Nat)
    (h : j < (enumCharPositions maxPos contents).length) :
    (enumCharPositions maxPos contents)[j]? =
      some ((contents.take j).foldl runePosStep (0, 0)) :=
  enumCharPositionsAux_getElem maxPos contents 0 0 0 j h

/-- Witness for C1 on a concrete file containing the two-byte rune `é`:
the third recorded position is line 1, character 0, because `é` counted
as a single character unit and the newline reset the column. -/
theorem benchmark_positions_over_decoded_text_witness :
    2 < (enumCharPositions 10 ['é', '\n', 'a']).length ∧
      (enumCharPositions 10 ['é', '\n', 'a'])[2]? =
        some (((['é', '\n', 'a']).take 2).foldl runePosStep (0, 0)) :=
  ⟨by decide, benchmark_positions_over_decoded_text 10 ['é', '\n', 'a'] 2 (by decide)⟩

lemma startsWithChars_iff (p : List Char) :
    ∀ s : List Char, startsWithChars s p = true ↔ ∃ t, s = p ++ t := by
  induction p with
  | nil =>
    intro s
    simp [startsWithChars]
  | cons d ds ih =>
    intro s
    cases s with
    | nil => simp [startsWithChars]
    | cons c cs =>
      simp [startsWithChars, ih cs, List.cons_eq_cons, Bool.and_eq_true, beq_iff_eq]

lemma containsChars_iff (sub : List Char) :
    ∀ s : List Char, containsChars s sub = true ↔ ∃ pre post, s = pre ++ sub ++ post := by
  intro s
  induction s with
  | nil =>
    simp [containsChars, List.isEmpty_iff]
  | cons c cs ih =>
    simp only [containsChars, Bool.or_eq_true, startsWithChars_iff, ih]
    constructor
    · rintro (⟨t, ht⟩ | ⟨pre, post, h⟩)
      · exact ⟨[], t, by simpa using ht⟩
      · exact ⟨c :: pre, post, by simp [h]⟩
    · rintro ⟨pre, post, h⟩
      cases pre with
      | nil => exact Or.inl ⟨post, by simpa using h⟩
      | cons p ps =>
        rcases List.cons_eq_cons.mp h with ⟨rfl, h2⟩
        exact Or.inr ⟨ps, post, by simpa using h2⟩

lemma goContains_iff (s sub : String) :
    goContains s sub = true ↔ ∃ pre post, s.toList = pre ++ sub.toList ++ post :=
  containsChars_iff sub.toList s.toList

/-- C2: an error from a position query is logged if and only if its
message does not contain the substring `"invalid location:"`; when the
message does contain it (the single harmless kind) nothing is logged,
and every other error produces exactly one log record carrying the
file, line, character and message. -/
theorem stress_error_logged_iff_not_invalid_location (path : String) (line character : Int)
    (msg : String) :
    (handleStressOpError path line character (some msg) ≠ [] ↔
      ¬ ∃ pre post, msg.toList = pre ++ ("invalid location:").toList ++ post) ∧
      ((¬ ∃ pre post, msg.toList = pre ++ ("invalid location:").toList ++ post) →
        handleStressOpError path line character (some msg) = [⟨path, line, character, msg⟩]) := by
  by_cases hc : goContains msg "invalid location:" = true
  · have hsub := (goContains_iff msg "invalid location:").mp hc
    constructor
    · exact iff_of_false (by simp [handleStressOpError, hc]) (not_not_intro hsub)
    · intro hn
      exact absurd hsub hn
  · have hsub : ¬ ∃ pre post, msg.toList = pre ++ ("invalid location:").toList ++ post := fun h =>
      hc ((goContains_iff msg "invalid location:").mpr h)
    have he : goContains msg "invalid location:" = false := by
      cases h : goContains msg "invalid location:" with
      | false => rfl
      | true => exact absurd h hc
    constructor
    · exact iff_of_true (by simp [handleStressOpError, he]) hsub
    · intro _
      simp [handleStressOpError, he]

/-- Witness for C2 at the message `"boom"`, which does not contain
`"invalid location:"` and is therefore logged. -/
theorem stress_error_logged_iff_not_invalid_location_witness :
    (handleStressOpError "mux.go" 0 0 (some "boom") ≠ [] ↔
      ¬ ∃ pre post, ("boom" : String).toList = pre ++ ("invalid location:").toList ++ post) ∧
      ((¬ ∃ pre post, ("boom" : String).toList = pre ++ ("invalid location:").toList ++ post) →
        handleStressOpError "mux.go" 0 0 (some "boom") = [⟨"mux.go", 0, 0, "boom"⟩]) :=
  stress_error_logged_iff_not_invalid_location "mux.go" 0 0 "boom"

/-- C3: `doStressTestOpForPosition` issues exactly the three methods
`textDocument/definition`, `textDocument/hover` and
`textDocument/references`, all with the identical document URI, line and
character; the set of issued calls does not depend on any call's
outcome; it returns nil iff all three calls succeed; and an error from
one method is tagged with that method's name and collected regardless of
the other calls. -/
theorem doStressTestOpForPosition_spec
    (call : String → TextDocumentPositionParams → Option String)
    (root : WorkspaceURI) (path : String) (line character : Int) :
    stressCallsIssued root path line character =
        [("textDocument/definition", stressParams root path line character),
         ("textDocument/hover", stressParams root path line character),
         ("textDocument/references", stressParams root path line character)] ∧
      (doStressTestOpForPosition call root path line character = none ↔
        ∀ m ∈ stressMethods, call m (stressParams root path line character) = none) ∧
      (∀ m ∈ stressMethods, ∀ e, call m (stressParams root path line character) = some e →
        (m ++ ": " ++ e) ∈ stressErrs call root path line character) ∧
      (stressErrs call root path line character ≠ [] →
        doStressTestOpForPosition call root path line character =
          some (stressErrs call root path line character)) := by
  refine ⟨rfl, ?_, ?_, ?_⟩
  · unfold doStressTestOpForPosition stressErrs stressMethods
    cases h1 : call "textDocument/definition" (stressParams root path line character) <;>
      cases h2 : call "textDocument/hover" (stressParams root path line character) <;>
        cases h3 : call "textDocument/references" (stressParams root path line character) <;>
          simp [h1, h2, h3]
  · intro m hm e he
    exact List.mem_filterMap.mpr ⟨m, hm, by simp [he]⟩
  · intro hne
    unfold doStressTestOpForPosition
    simp [List.isEmpty_iff, hne]

lemma sessionIdleAtLeast_zero (now : Nat) (s : Session) :
    sessionIdleAtLeast now 0 s = (s.inFlightCount == 0) := by
  simp [sessionIdleAtLeast]

lemma ShutDownIdleServers_zero (now : Nat) (reg : SessionRegistry) :
    ShutDownIdleServers now 0 reg = reg.filter (fun e => !(e.2.inFlightCount == 0)) := by
  unfold ShutDownIdleServers
  apply List.filter_congr
  intro e _
  simp [sessionIdleAtLeast]

lemma lookupSession_filter_none (p : SessionKey × Session → Bool) (k : SessionKey) :
    ∀ reg : SessionRegistry, (∀ s : Session, (k, s) ∈ reg → p (k, s) = false) →
      lookupSession (reg.filter p) k = none := by
  intro reg
  induction reg with
  | nil => intro _; rfl
  | cons e rest ih =>
    intro h
    obtain ⟨k', s⟩ := e
    have htail : ∀ s' : Session, (k, s') ∈ rest → p (k, s') = false := fun s' hs' =>
      h s' (List.mem_cons_of_mem _ hs')
    by_cases hk : k' = k
    · subst hk
      have hp := h s (List.mem_cons_self _ _)
      simp [List.filter_cons, hp]
      exact ih htail
    · cases hp : p (k', s) with
      | false =>
        simp [List.filter_cons, hp]
        exact ih htail
      | true =>
        simp [List.filter_cons, hp, lookupSession, hk]
        exact ih htail

/-- C4: after `ShutDownIdleServers` with threshold 0, a handshake for a
previously-used key whose sessions are drained (zero in-flight requests,
as after the benchmark's `wg.Wait()`) spawns a fresh Session whose
filesystem cache starts empty, rather than reusing a warm Session. -/
theorem reap_zero_then_handshake_spawns_fresh (now now' : Nat) (k : SessionKey)
    (reg : SessionRegistry) (_hused : (lookupSession reg k).isSome = true)
    (hdrained : ∀ e ∈ reg, e.1 = k → e.2.inFlightCount = 0) :
    handshakeSession now' k (ShutDownIdleServers now 0 reg) =
      ((⟨now', 0, []⟩ : Session), true,
        (k, (⟨now', 0, []⟩ : Session)) :: ShutDownIdleServers now 0 reg) := by
  have hnone : lookupSession (ShutDownIdleServers now 0 reg) k = none := by
    unfold ShutDownIdleServers
    apply lookupSession_filter_none
    intro s hs
    have h0 : s.inFlightCount = 0 := hdrained (k, s) hs rfl
    simp [sessionIdleAtLeast, h0]
  unfold handshakeSession
  rw [hnone]

/-- Witness for C4: a registry holding one warm, drained Session for the
gorilla/mux key; after a threshold-0 reap the handshake spawns a fresh
Session with an empty filesystem cache. -/
theorem reap_zero_then_handshake_spawns_fresh_witness :
    ((lookupSession [(sampleKey, sampleSession)] sampleKey).isSome = true ∧
        (∀ e ∈ [(sampleKey, sampleSession)], e.1 = sampleKey → e.2.inFlightCount = 0)) ∧
      handshakeSession 9 sampleKey (ShutDownIdleServers 7 0 [(sampleKey, sampleSession)]) =
        ((⟨9, 0, []⟩ : Session), true,
          (sampleKey, (⟨9, 0, []⟩ : Session)) ::
            ShutDownIdleServers 7 0 [(sampleKey, sampleSession)]) :=
  ⟨⟨by decide, by decide⟩,
    reap_zero_then_handshake_spawns_fresh 7 9 sampleKey [(sampleKey, sampleSession)]
      (by decide) (by decide)⟩

/-- C5: reaping with threshold 0 twice in succession (no intervening
traffic) is safe and the second call is a no-op — after the first call
no surviving Session satisfies the reap criterion at any later time, so
the second call changes nothing. -/
theorem reap_zero_idempotent (now now' : Nat) (reg : SessionRegistry) :
    ShutDownIdleServers now' 0 (ShutDownIdleServers now 0 reg) =
        ShutDownIdleServers now 0 reg ∧
      ∀ e ∈ ShutDownIdleServers now 0 reg, sessionIdleAtLeast now' 0 e.2 = false := by
  constructor
  · rw [ShutDownIdleServers_zero now reg, ShutDownIdleServers_zero now',
      List.filter_filter]
    simp
  · intro e he
    rw [ShutDownIdleServers_zero] at he
    have hkeep := (List.mem_filter.mp he).2
    rw [sessionIdleAtLeast_zero]
    simpa using hkeep

/-- C6: the error-logging toggle defaults to enabled; the benchmark runs
its body with the toggle disabled and, along every exit path, the final
xlang globals equal the initial ones — the toggle is restored to exactly
its original value and no other xlang global is left modified. -/
theorem logTrackedErrors_default_and_restored {V : Type} (g : XlangGlobals V) (benchVFS : V)
    (p : BenchExitPath) :
    logTrackedErrorsDefault = true ∧
      (benchmarkStressBodyGlobals benchVFS).logTrackedErrors = false ∧
      benchmarkStressGlobals g benchVFS p = g := by
  refine ⟨rfl, rfl, ?_⟩
  cases p <;> rfl

/-- C7: on each fresh client connection the benchmark sends the
`initialize` handshake first, carrying exactly the workspace root URI
string and the mode; if the handshake fails nothing else is sent, and
any position query in the sequence implies the handshake succeeded. -/
theorem handshake_sent_first_then_position_queries (root : WorkspaceURI) (mode : String)
    (initErr : Option String) (positions : List (String × Nat × Nat)) :
    (benchIterationRequests root mode initErr positions).head? =
        some (ClientRequest.initRequest (WorkspaceURI.toString root) mode) ∧
      (initErr ≠ none →
        benchIterationRequests root mode initErr positions =
          [ClientRequest.initRequest (WorkspaceURI.toString root) mode]) ∧
      (∀ method params,
        ClientRequest.positionQuery method params ∈
            benchIterationRequests root mode initErr positions →
          initErr = none) := by
  refine ⟨rfl, ?_, ?_⟩
  · intro hne
    cases initErr with
    | none => exact absurd rfl hne
    | some e => rfl
  · intro method params hmem
    cases initErr with
    | none => rfl
    | some e => simp [benchIterationRequests] at hmem

lemma methodsTrace_cached (res : Except String ComputeResult) :
    ∀ (ms : List ResolverMethod) (st : ResolverState), st.cached = some res →
      methodsTrace ms st = (ms.map (fun _ => res), st) := by
  intro ms
  induction ms with
  | nil => intro st _; rfl
  | cons m ms ih =>
    intro st h
    simp [methodsTrace, compute, h, ih st h]

/-- C8: starting from a fresh resolver whose once-body completes without
panicking, any sequence of `TotalCount`/`PageInfo`/`Nodes` calls runs
the underlying computation at most once (exactly once when any call is
made), and every call observes the same cached quadruple — the same
code-host list, page slice, credential map and error — from which each
method's reply is derived purely. -/
theorem compute_memoized_and_consistent (r : campaignsCodeHostConnectionResolver)
    (res : ComputeResult) (h : computeCore r = .ok res) (ms : List ResolverMethod) :
    (methodsTrace ms ⟨r, none, 0⟩).1 = ms.map (fun _ => Except.ok res) ∧
      (methodsTrace ms ⟨r, none, 0⟩).2.runCount = min ms.length 1 := by
  cases ms with
  | nil => exact ⟨rfl, rfl⟩
  | cons m ms' =>
    have hstep : compute ⟨r, none, 0⟩ =
        (Except.ok res, ⟨r, some (Except.ok res), 1⟩) := by
      simp [compute, h]
    have hcached :=
      methodsTrace_cached (Except.ok res) ms' ⟨r, some (Except.ok res), 1⟩ rfl
    constructor
    · simp [methodsTrace, hstep, hcached]
    · simp only [methodsTrace, hstep, hcached]
      simp [Nat.min_def]

/-- Witness for C8: the sample resolver computes one code host with no
error; four interleaved method calls all observe that quadruple and the
body runs exactly once. -/
theorem compute_memoized_and_consistent_witness :
    computeCore sampleResolver =
        .ok ⟨[sampleCodeHost], [sampleCodeHost], [], none⟩ ∧
      ((methodsTrace
            [ResolverMethod.totalCount, ResolverMethod.pageInfo, ResolverMethod.nodes,
              ResolverMethod.totalCount] ⟨sampleResolver, none, 0⟩).1 =
          [ResolverMethod.totalCount, ResolverMethod.pageInfo, ResolverMethod.nodes,
              ResolverMethod.totalCount].map
            (fun _ =>
              Except.ok (⟨[sampleCodeHost], [sampleCodeHost], [], none⟩ : ComputeResult)) ∧
        (methodsTrace
            [ResolverMethod.totalCount, ResolverMethod.pageInfo, ResolverMethod.nodes,
              ResolverMethod.totalCount] ⟨sampleResolver, none, 0⟩).2.runCount =
          min 4 1) :=
  ⟨by decide,
    compute_memoized_and_consistent sampleResolver
      ⟨[sampleCodeHost], [sampleCodeHost], [], none⟩ (by decide)
      [ResolverMethod.totalCount, ResolverMethod.pageInfo, ResolverMethod.nodes,
        ResolverMethod.totalCount]⟩

/-- Counterexample to C9 as stated: with limit 0 and offset 0 over one
code host, `PageInfo` reports a next page (cursor "0") although the page
computed for `Nodes` is the entire list and excludes no code host. -/
theorem pageinfo_vs_nodes_counterexample :
    computePage 0 0 [sampleCodeHost] = .ok [sampleCodeHost] ∧
      (pageInfoOf 0 0 [sampleCodeHost]).hasNextPage = true ∧
      (pageInfoOf 0 0 [sampleCodeHost]).endCursor = some "0" ∧
      ¬ ([sampleCodeHost] : List CodeHost).length <
          ([sampleCodeHost] : List CodeHost).length := by
  refine ⟨rfl, rfl, ?_, by omega⟩
  rfl

/-- C9 (amended): `PageInfo` reports a next page iff
`limit + offset < len(chs)`, with cursor `limit + offset`; for a
non-positive limit the page is everything from the offset on; and the
claimed equivalence with "the page excludes at least one code host"
holds when the offset is 0 and the limit positive. -/
theorem pageinfo_next_iff_cursor_within_total (limit offset : Int) (chs : List CodeHost) :
    ((pageInfoOf limit offset chs).hasNextPage = true ↔
        limit + offset < (chs.length : Int)) ∧
      ((pageInfoOf limit offset chs).hasNextPage = true →
        (pageInfoOf limit offset chs).endCursor = some (toString (limit + offset))) ∧
      (limit ≤ 0 → 0 ≤ offset → offset < (chs.length : Int) →
        computePage limit offset chs = .ok (chs.drop offset.toNat)) ∧
      (offset = 0 → 0 < limit →
        ((pageInfoOf limit offset chs).hasNextPage = true ↔
          ∃ page, computePage limit offset chs = .ok page ∧
            page.length < chs.length)) := by
  refine ⟨?_, ?_, ?_, ?_⟩
  · unfold pageInfoOf
    by_cases hlt : limit + offset < (chs.length : Int)
    · rw [if_pos hlt]
      simpa using hlt
    · rw [if_neg hlt]
      simpa using hlt
  · intro hnext
    unfold pageInfoOf at hnext ⊢
    by_cases hlt : limit + offset < (chs.length : Int)
    · rw [if_pos hlt]
    · rw [if_neg hlt] at hnext
      simp at hnext
  · intro h1 h2 h3
    unfold computePage
    rw [if_neg (by omega), if_pos h1, if_neg (by omega)]
  · intro hoff hlim
    subst hoff
    by_cases hlen : (chs.length : Int) ≤ 0
    · have h0 : chs.length = 0 := by omega
      obtain rfl : chs = [] := List.length_eq_zero.mp h0
      refine iff_of_false ?_ ?_
      · unfold pageInfoOf
        rw [if_neg (by simp; omega)]
        simp
      · rintro ⟨page, hp, hlt⟩
        unfold computePage at hp
        rw [if_pos (by simp)] at hp
        obtain rfl := (Except.ok.inj hp).symm
        simp at hlt
    · have hpos : 0 < chs.length := by omega
      by_cases hcap : (chs.length : Int) ≤ limit
      · have hnext : (pageInfoOf limit 0 chs).hasNextPage = false := by
          unfold pageInfoOf
          rw [if_neg (by omega)]
        have hpage : computePage limit 0 chs = .ok chs := by
          unfold computePage
          rw [if_neg (by omega), if_neg (by omega)]
          simp only [if_pos (show (chs.length : Int) ≤ limit + 0 by omega),
            if_neg (show ¬(0 : Int) < 0 by omega)]
          simp
        refine iff_of_false (by simp [hnext]) ?_
        rintro ⟨page, hp, hlt⟩
        rw [hpage] at hp
        obtain rfl := Except.ok.inj hp
        omega
      · have hnext : (pageInfoOf limit 0 chs).hasNextPage = true := by
          unfold pageInfoOf
          rw [if_pos (by omega)]
        have hpage : computePage limit 0 chs = .ok (chs.take limit.toNat) := by
          unfold computePage
          rw [if_neg (by omega), if_neg (by omega)]
          simp only [if_neg (show ¬(chs.length : Int) ≤ limit + 0 by omega),
            if_neg (show ¬(0 : Int) < 0 by omega)]
          simp
        refine iff_of_true hnext ⟨chs.take limit.toNat, hpage, ?_⟩
        have hlen' : (chs.take limit.toNat).length = min limit.toNat chs.length :=
          List.length_take _ _
        have hnat : limit.toNat < chs.length := by omega
        omega

/-- Witness for C9 (amended) at limit 1, offset 0 over one code host:
no next page is reported and the page is the whole list. -/
theorem pageinfo_next_iff_cursor_within_total_witness :
    ((pageInfoOf 1 0 [sampleCodeHost]).hasNextPage = true ↔
        (1 : Int) + 0 < (([sampleCodeHost] : List CodeHost).length : Int)) ∧
      ((pageInfoOf 1 0 [sampleCodeHost]).hasNextPage = true →
        (pageInfoOf 1 0 [sampleCodeHost]).endCursor = some (toString ((1 : Int) + 0))) ∧
      ((1 : Int) ≤ 0 → (0 : Int) ≤ 0 → (0 : Int) < (([sampleCodeHost] : List CodeHost).length : Int) →
        computePage 1 0 [sampleCodeHost] = .ok (([sampleCodeHost] : List CodeHost).drop (0 : Int).toNat)) ∧
      ((0 : Int) = 0 → (0 : Int) < 1 →
        ((pageInfoOf 1 0 [sampleCodeHost]).hasNextPage = true ↔
          ∃ page, computePage 1 0 [sampleCodeHost] = .ok page ∧
            page.length < ([sampleCodeHost] : List CodeHost).length)) :=
  pageinfo_next_iff_cursor_within_total 1 0 [sampleCodeHost]

lemma reposMapLookup_set_self (k : String) (v : List (Option Repo)) :
    ∀ m, reposMapLookup (reposMapSet m k v) k = some v := by
  intro m
  induction m with
  | nil => simp [reposMapSet, reposMapLookup]
  | cons e rest ih =>
    obtain ⟨k', v'⟩ := e
    by_cases hk : k' = k
    · simp [reposMapSet, reposMapLookup, hk]
    · simp [reposMapSet, reposMapLookup, hk, ih]

lemma reposMapLookup_set_other (k k' : String) (v : List (Option Repo)) (hk : k ≠ k') :
    ∀ m, reposMapLookup (reposMapSet m k v) k' = reposMapLookup m k' := by
  intro m
  induction m with
  | nil => simp [reposMapSet, reposMapLookup, hk]
  | cons e rest ih =>
    obtain ⟨k'', v''⟩ := e
    by_cases hk2 : k'' = k
    · subst hk2
      simp [reposMapSet, reposMapLookup, hk]
    · simp [reposMapSet, reposMapLookup, hk2, ih]

lemma buildReposByServiceIDs_step_invariant
    (m : List (String × List (Option Repo)))
    (hm : ∀ k l, reposMapLookup m k = some l → none ∈ l) (repo : Repo) :
    ∀ k l,
      reposMapLookup
          (reposMapSet m repo.serviceID
            ((match reposMapLookup m repo.serviceID with
              | none => [(none : Option Repo)]
              | some l => l) ++ [some repo])) k = some l →
        none ∈ l := by
  intro k l hl
  by_cases hk : repo.serviceID = k
  · subst hk
    rw [reposMapLookup_set_self] at hl
    obtain rfl := (Option.some.inj hl).symm
    apply List.mem_append_left
    cases hx : reposMapLookup m repo.serviceID with
    | none => simp [hx]
    | some l' =>
      simp only [hx]
      exact hm _ _ hx
  · rw [reposMapLookup_set_other _ _ _ hk] at hl
    exact hm _ _ hl

/-- C10 shows this is violated: the seeding of `reposByServiceIDs` with
`make([]*types.Repo, 1)` leaves a nil pointer at index 0 of every
slice, concretely and in general, and the `CloneURLs` loop panics on
it. -/
theorem reposByServiceIDs_always_holds_nil :
    buildReposByServiceIDs [sampleRepo] =
        [("https://github.com/", [none, some sampleRepo])] ∧
      scanRepos [none, some sampleRepo] false = ScanOutcome.panicked nilPanicMsg ∧
      ∀ (repos : List Repo) (k : String) (l : List (Option Repo)),
        reposMapLookup (buildReposByServiceIDs repos) k = some l → none ∈ l := by
  refine ⟨rfl, rfl, ?_⟩
  suffices h : ∀ (repos : List Repo) (m : List (String × List (Option Repo))),
      (∀ k l, reposMapLookup m k = some l → none ∈ l) →
      ∀ k l,
        reposMapLookup
            (repos.foldl
              (fun m repo =>
                reposMapSet m repo.serviceID
                  ((match reposMapLookup m repo.serviceID with
                    | none => [(none : Option Repo)]
                    | some l => l) ++ [some repo])) m) k = some l →
          none ∈ l by
    intro repos k l
    exact h repos [] (by intro k' l' hl'; simp [reposMapLookup] at hl') k l
  intro repos
  induction repos with
  | nil => intro m hm; exact hm
  | cons repo rest ih =>
    intro m hm
    exact ih _ (buildReposByServiceIDs_step_invariant m hm repo)

end Spec2Proof
